import Mathlib

/-!
Verification of the orchestration core of the Claude-Nightshift task runner.

The development shallowly embeds the pure decision logic of the Python
sources: the stage driver loop (task_runner.py, TaskRunner._drive and
TaskRunner._run_code_review), the review persona (personas/architect.py,
ArchitectPersona.execute_review, together with the label and stage effects
of personas/base.py), the label mutual-exclusion operation
(github_client.py, GitHubClient.set_stage_label), the worktree and push
logic (worktree_manager.py, WorktreeManager.create_worktree and
WorktreeManager.commit_and_push), the recurrence arithmetic (recurring.py)
and the task selector (main.py, select_task; task_parser.py,
PRIORITY_ORDER).

External effects are made explicit: git subprocess invocations become a
trace of GitCall values (working directory plus argument list), collaborator
label writes become a chronological list of stage labels set, the worker
invocation becomes its observable pair of a success flag and an output
string, and wall-clock datetimes become integer seconds.
-/

namespace Nightshift

/-- Runtime task state, the fields of task_parser.Task that the
orchestration core reads or writes. -/
structure Task where
  issue_number : Nat
  priority : String
  schedule : String
  night_only : Bool
  current_stage : String
  review_cycles : Nat
  qa_cycles : Nat
  pr_number : Option Nat
  pr_url : Option String
  branch_name : String
deriving Repr, DecidableEq

/-- Substring containment, the Python expression pat in s. -/
def strContains (s pat : String) : Bool :=
  decide (pat.data <:+: s.data)

/-- Python str.strip(): drop whitespace at both ends. -/
def pyStrip (s : String) : String :=
  String.mk (((s.data.dropWhile Char.isWhitespace).reverse.dropWhile Char.isWhitespace).reverse)

/-- One recorded git subprocess invocation: working directory and
argument list, as passed to WorktreeManager._run_git. -/
structure GitCall where
  cwd : String
  args : List String
deriving Repr, DecidableEq

/- Source: github_client.py: set_stage_label -/

/-- The stage label vocabulary of GitHubClient.set_stage_label. -/
def stage_labels : List String :=
  ["ready", "triage", "design", "development",
   "code-review", "qa", "awaiting-human", "done", "failed"]

/-- GitHubClient.set_stage_label on the label set of an issue, assuming
the issue fetch and each label add and remove succeed: remove every stage
label other than the new one, then add the new one when absent. -/
def set_stage_label (labels : List String) (new_stage : String) : List String :=
  let removed := labels.filter (fun l => !(decide (l ∈ stage_labels) && decide (l ≠ new_stage)))
  if new_stage ∈ labels then removed else removed ++ [new_stage]

/- Source: recurring.py: RecurringTracker -/

/-- One persisted recurrence entry, the JSON value stored per issue key.
The last_run field is optional because _load accepts records without it. -/
structure RecurrenceEntry where
  schedule : String
  last_run : Option Int
deriving Repr, DecidableEq

/-- The intervals dictionary of RecurringTracker.is_due, in seconds:
timedelta(days=1), timedelta(weeks=1), timedelta(days=30). -/
def intervalFor (schedule : String) : Option Int :=
  if schedule = "daily" then some 86400
  else if schedule = "weekly" then some 604800
  else if schedule = "monthly" then some 2592000
  else none

/-- RecurringTracker.is_due. Datetimes are modeled as integer seconds,
now being datetime.utcnow() at the call. -/
def is_due (data : Nat → Option RecurrenceEntry) (now : Int)
    (issue_number : Nat) (schedule : String) : Bool :=
  match data issue_number with
  | none => true
  | some entry =>
    match entry.last_run with
    | none => true
    | some last_run =>
      match intervalFor schedule with
      | none => true
      | some interval => decide (interval ≤ now - last_run)

/-- RecurringTracker.record_run: overwrite the entry for the issue with
the schedule and the current time. -/
def record_run (data : Nat → Option RecurrenceEntry) (now : Int)
    (issue_number : Nat) (schedule : String) : Nat → Option RecurrenceEntry :=
  fun k => if k = issue_number then some ⟨schedule, some now⟩ else data k

/- Source: personas/architect.py: execute_review -/

/-- The approval marker searched for in the worker output. -/
def APPROVED_MARKER : String := "REVIEW_VERDICT: APPROVED"

/-- The changes-required marker searched for in the worker output. -/
def CHANGES_MARKER : String := "REVIEW_VERDICT: CHANGES_REQUIRED"

/-- Result of a review invocation: the updated task, the verdict string
returned to the driver, and the chronological list of stage labels the
call wrote through set_stage_label (fail writes failed, escalate_to_human
writes awaiting-human via tag_human, transition writes the new stage). -/
structure ReviewOut where
  task : Task
  verdict : String
  labels : List String
deriving Repr, DecidableEq

/-- ArchitectPersona.execute_review. Parameters carry the observable
behaviour of the collaborators: diff is the PR diff fetch result,
invoke_ok and output the worker invocation result, max_cycles the
configured limits.max_review_cycles. -/
def execute_review (max_cycles : Nat) (diff : Option String) (invoke_ok : Bool)
    (output : String) (task : Task) : ReviewOut :=
  match task.pr_number with
  | none => ⟨task, "failed", ["failed"]⟩
  | some _ =>
    match diff with
    | none => ⟨task, "failed", ["failed"]⟩
    | some _ =>
      if invoke_ok = false then ⟨task, "failed", ["failed"]⟩
      else if strContains output APPROVED_MARKER then ⟨task, "approved", []⟩
      else if strContains output CHANGES_MARKER then
        let cycles := task.review_cycles + 1
        if max_cycles ≤ cycles then
          ⟨{ task with review_cycles := cycles, current_stage := "awaiting-human" },
           "escalated", ["awaiting-human"]⟩
        else
          ⟨{ task with review_cycles := cycles, current_stage := "development" },
           "changes_required", ["development"]⟩
      else
        ⟨{ task with current_stage := "development" }, "changes_required", ["development"]⟩

/- Source: task_runner.py: _run_code_review and _drive -/

/-- Result of a stage handler at the driver level: updated task, the
handler result string, and the stage labels written during the call. -/
structure RunOut where
  task : Task
  result : String
  labels : List String
deriving Repr, DecidableEq

/-- TaskRunner._run_code_review. find_pr is the observable result of
_find_pr_number (PR number and URL when an open PR exists for the
branch). On an approved verdict the driver calls tag_human, which writes
the awaiting-human stage label. -/
def run_code_review (find_pr : Option (Nat × String)) (max_cycles : Nat)
    (diff : Option String) (invoke_ok : Bool) (output : String)
    (task : Task) : RunOut :=
  let pr_task : Option Task :=
    match task.pr_number with
    | some _ => some task
    | none =>
      match find_pr with
      | some nu => some { task with pr_number := some nu.1, pr_url := some nu.2 }
      | none => none
  match pr_task with
  | none => ⟨task, "failed", ["failed"]⟩
  | some t0 =>
    let r := execute_review max_cycles diff invoke_ok output t0
    if r.verdict = "approved" then ⟨r.task, "blocked", r.labels ++ ["awaiting-human"]⟩
    else if r.verdict = "changes_required" then ⟨r.task, "continue", r.labels⟩
    else if r.verdict = "escalated" then ⟨r.task, "blocked", r.labels⟩
    else ⟨r.task, "failed", r.labels⟩

/-- The stages dispatched to a stage handler by the driver loop. -/
def handlerStages : List String := ["triage", "design", "development", "code-review"]

/-- The handler result strings on which the driver loop returns. -/
def terminalResults : List String := ["done", "blocked", "failed"]

/-- Result of a driver run: final result string, final oracle state,
final task, number of stage-handler invocations, and the stage labels the
driver itself wrote (only the failed label on ceiling exhaustion). -/
structure DriveOut (σ : Type) where
  result : String
  state : σ
  task : Task
  calls : Nat
  driverLabels : List String

/-- The loop body of TaskRunner._drive, by recursion on the remaining
iterations. The handler abstracts the four stage handlers; its oracle
state σ carries the nondeterminism of the external collaborators. When
the iteration budget is exhausted the driver posts a diagnostic, writes
the failed stage label, and returns failed. -/
def driveAux {σ : Type} (handler : σ → String → Task → σ × Task × String) :
    Nat → σ → Task → DriveOut σ
  | 0, s, task => ⟨"failed", s, task, 0, ["failed"]⟩
  | fuel + 1, s, task =>
    if task.current_stage ∈ handlerStages then
      let r := handler s task.current_stage task
      if r.2.2 ∈ terminalResults then
        ⟨r.2.2, r.1, r.2.1, 1, []⟩
      else
        let out := driveAux handler fuel r.1 r.2.1
        ⟨out.result, out.state, out.task, out.calls + 1, out.driverLabels⟩
    else if task.current_stage = "done" ∨ task.current_stage = "failed" then
      ⟨task.current_stage, s, task, 0, []⟩
    else if task.current_stage = "awaiting-human" then
      ⟨"blocked", s, task, 0, []⟩
    else
      ⟨"failed", s, task, 0, []⟩

/-- The max_iterations constant of TaskRunner._drive. -/
def MAX_ITERATIONS : Nat := 20

/-- TaskRunner._drive: run the loop body with the full iteration budget. -/
def drive {σ : Type} (handler : σ → String → Task → σ × Task × String)
    (s : σ) (task : Task) : DriveOut σ :=
  driveAux handler MAX_ITERATIONS s task

/- Source: worktree_manager.py: commit_and_push and create_worktree -/

/-- WorktreeManager.commit_and_push as the trace of git calls it issues,
paired with its outcome (ok b for a return of b, error for a propagated
CalledProcessError). status_out is the captured output of git status
porcelain (none when capture failed), branch the captured current branch
name, push_ok and force_ok whether the two push attempts succeed. -/
def commit_and_push (worktree_path : String) (message : String)
    (status_out : Option String) (branch : String) (push_ok force_ok : Bool) :
    Except Unit Bool × List GitCall :=
  let stageCall := GitCall.mk worktree_path ["add", "-A"]
  let statusCall := GitCall.mk worktree_path ["status", "--porcelain"]
  match status_out with
  | none => (Except.ok false, [stageCall, statusCall])
  | some s =>
    if pyStrip s = "" then (Except.ok false, [stageCall, statusCall])
    else
      let commitCall := GitCall.mk worktree_path ["commit", "-m", message]
      let branchCall := GitCall.mk worktree_path ["rev-parse", "--abbrev-ref", "HEAD"]
      let pushCall := GitCall.mk worktree_path ["push", "-u", "origin", branch]
      if push_ok then
        (Except.ok true, [stageCall, statusCall, commitCall, branchCall, pushCall])
      else
        let forceCall :=
          GitCall.mk worktree_path ["push", "--force-with-lease", "-u", "origin", branch]
        if force_ok then
          (Except.ok true, [stageCall, statusCall, commitCall, branchCall, pushCall, forceCall])
        else
          (Except.error (), [stageCall, statusCall, commitCall, branchCall, pushCall, forceCall])

/-- Recognizer for a commit-creating git call in a trace. -/
def isCommitCall (c : GitCall) : Bool := c.args.head? = some ("commit")

/-- Recognizer for a push git call in a trace. -/
def isPushCall (c : GitCall) : Bool := c.args.head? = some ("push")

/-- The authenticated clone URL built by WorktreeManager for a repository
coordinate. -/
def cloneUrl (token repo : String) : String :=
  "https://x-access-token:" ++ token ++ "@github.com/" ++ repo ++ ".git"

/-- The base-reference resolution loop of create_worktree: try the
remote-tracking form first, then the local form. resolvable reports
whether git rev-parse verify succeeds on a ref in the bare repo. -/
def resolveBaseRef (resolvable : String → Bool) (base_branch : String) : Option String :=
  if resolvable ("origin/" ++ base_branch) then some ("origin/" ++ base_branch)
  else if resolvable base_branch then some base_branch
  else none

/-- WorktreeManager.create_worktree from the post-fetch state, as the
trace of mutating git calls it issues. The rev-parse probe calls are
abstracted by resolvable; setup_repo and the stale-worktree removal
happen before this point and are elided from the trace. -/
def create_worktree (resolvable : String → Bool) (token repo branch_name base_branch
    repo_dir worktree_path : String) : List GitCall :=
  let fetchCall := GitCall.mk repo_dir ["fetch", "--all"]
  let url := cloneUrl token repo
  let setUrlCall := GitCall.mk worktree_path ["remote", "set-url", "origin", url]
  match resolveBaseRef resolvable base_branch with
  | some base_ref =>
    if resolvable branch_name then
      [fetchCall,
       GitCall.mk repo_dir ["worktree", "add", worktree_path, branch_name],
       setUrlCall]
    else
      [fetchCall,
       GitCall.mk repo_dir ["worktree", "add", "-b", branch_name, worktree_path, base_ref],
       setUrlCall]
  | none =>
    [fetchCall,
     GitCall.mk worktree_path ["init"],
     GitCall.mk worktree_path ["remote", "add", "origin", url],
     GitCall.mk worktree_path ["checkout", "--orphan", branch_name],
     setUrlCall]

/- Source: main.py: select_task; task_parser.py: PRIORITY_ORDER -/

/-- The PRIORITY_ORDER dictionary of task_parser.py, as the lookup
PRIORITY_ORDER.get(p, 1) performed by select_task. -/
def PRIORITY_ORDER (p : String) : Nat :=
  if p = "high" then 0 else if p = "low" then 2 else 1

/-- is_in_night_window: the local hour lies in the half-open configured
window. -/
def is_in_night_window (night_start night_end hour : Nat) : Bool :=
  decide (night_start ≤ hour) && decide (hour < night_end)

/-- The two filters of the select_task candidate loop: keep a task unless
it is night-only outside the window, or recurring and not due. -/
def eligibleTask (in_night : Bool) (data : Nat → Option RecurrenceEntry)
    (now : Int) (t : Task) : Bool :=
  !(t.night_only && !in_night) &&
    (decide (t.schedule = "once") || is_due data now t.issue_number t.schedule)

/-- The sort key comparison used by candidates.sort, as a total Boolean
preorder for the stable merge sort. -/
def taskLE (a b : Task) : Bool :=
  decide (PRIORITY_ORDER a.priority ≤ PRIORITY_ORDER b.priority)

/-- The candidate list built by the select_task loop. -/
def candidateTasks (issues : List Task) (night_start night_end hour : Nat)
    (data : Nat → Option RecurrenceEntry) (now : Int) : List Task :=
  issues.filter (eligibleTask (is_in_night_window night_start night_end hour) data now)

/-- main.select_task over parsed tasks: filter, return none when no
candidate remains, otherwise stable-sort by priority and take the first.
Python list.sort is a stable sort, matching List.mergeSort. -/
def select_task (issues : List Task) (night_start night_end hour : Nat)
    (data : Nat → Option RecurrenceEntry) (now : Int) : Option Task :=
  let candidates := candidateTasks issues night_start night_end hour data now
  match candidates with
  | [] => none
  | _ :: _ => (candidates.mergeSort taskLE).head?

/-- Boolean comparison induced by a numeric key. taskLE is keyLE of the
priority key, definitionally. -/
def keyLE {α : Type} (f : α → Nat) (a b : α) : Bool :=
  decide (f a ≤ f b)

/-- First element of a list attaining the minimal key: the element a
stable sort by that key followed by taking index zero returns. -/
def firstMinBy {α : Type} (f : α → Nat) : List α → Option α
  | [] => none
  | a :: l =>
    match firstMinBy f l with
    | none => some a
    | some b => if f a ≤ f b then some a else some b

/-- A driver stage-handler oracle exercising the development and
code-review stages where every review worker invocation succeeds but its
output carries neither verdict marker; outputs enumerates the successive
worker outputs and dev is the task update of a successful development
stage. -/
def ambiguousLoopStep (outputs : Nat → String) (find_pr : Option (Nat × String))
    (max_cycles : Nat) (d : String) (dev : Task → Task) :
    Nat → String → Task → Nat × Task × String :=
  fun i st t =>
    if st = "code-review" then
      let r := run_code_review find_pr max_cycles (some d) true (outputs i) t
      (i + 1, r.task, r.result)
    else if st = "development" then
      (i + 1, dev t, "continue")
    else
      (i + 1, t, "failed")

/-! Theorems. -/

/-- Any stage label remaining after set_stage_label equals the new stage. -/
theorem stage_mem_set_stage_label {labels : List String} {new_stage l : String}
    (hmem : l ∈ set_stage_label labels new_stage) (hsl : l ∈ stage_labels) :
    l = new_stage := by
  unfold set_stage_label at hmem
  by_cases h : new_stage ∈ labels
  · rw [if_pos h] at hmem
    rcases List.mem_filter.mp hmem with ⟨-, hp⟩
    simp [hsl] at hp
    exact hp
  · rw [if_neg h] at hmem
    rcases List.mem_append.mp hmem with hm | hm
    · rcases List.mem_filter.mp hm with ⟨-, hp⟩
      simp [hsl] at hp
      exact hp
    · simpa using hm

/-- C3: after set_stage_label completes (the underlying fetch, add and
remove operations succeeding, no concurrent modification), at most one
label of the stage vocabulary is present, and every non-stage label that
was present before is still present. -/
theorem set_stage_label_exclusive_preserves (labels : List String) (new_stage : String) :
    (∀ l₁ ∈ set_stage_label labels new_stage, ∀ l₂ ∈ set_stage_label labels new_stage,
        l₁ ∈ stage_labels → l₂ ∈ stage_labels → l₁ = l₂) ∧
    (∀ l ∈ labels, l ∉ stage_labels → l ∈ set_stage_label labels new_stage) := by
  constructor
  · intro l₁ h₁ l₂ h₂ hs₁ hs₂
    rw [stage_mem_set_stage_label h₁ hs₁, stage_mem_set_stage_label h₂ hs₂]
  · intro l hl hns
    have hf : l ∈ labels.filter
        (fun x => !(decide (x ∈ stage_labels) && decide (x ≠ new_stage))) := by
      refine List.mem_filter.mpr ⟨hl, ?_⟩
      simp [hns]
    unfold set_stage_label
    by_cases h : new_stage ∈ labels
    · rw [if_pos h]; exact hf
    · rw [if_neg h]; exact List.mem_append.mpr (Or.inl hf)

/-- Witness for C3: the non-stage label claude survives a transition of a
ready issue to triage. -/
theorem set_stage_label_exclusive_preserves_witness :
    "claude" ∈ set_stage_label ["claude", "ready"] "triage" :=
  (set_stage_label_exclusive_preserves ["claude", "ready"] "triage").2
    "claude" (by decide) (by decide)

/-- C6: is_due is true iff no record exists (or the record lacks a last
run), or the elapsed time reaches the fixed interval of 1, 7 or 30 days;
immediately after record_run a daily task is not due, and it is due again
once at least 24 hours have elapsed. -/
theorem is_due_spec (data : Nat → Option RecurrenceEntry) (now : Int) (issue_number : Nat) :
    (∀ schedule, data issue_number = none → is_due data now issue_number schedule = true) ∧
    (∀ schedule entry last_run interval,
        data issue_number = some entry → entry.last_run = some last_run →
        intervalFor schedule = some interval →
        (is_due data now issue_number schedule = true ↔ interval ≤ now - last_run)) ∧
    intervalFor ("daily") = some 86400 ∧
    intervalFor ("weekly") = some 604800 ∧
    intervalFor ("monthly") = some 2592000 ∧
    is_due (record_run data now issue_number ("daily")) now issue_number ("daily") = false ∧
    (∀ later : Int, (86400 : Int) ≤ later - now →
        is_due (record_run data now issue_number ("daily")) later issue_number ("daily")
          = true) := by
  refine ⟨?_, ?_, rfl, rfl, rfl, ?_, ?_⟩
  · intro schedule h
    simp [is_due, h]
  · intro schedule entry last_run interval he hl hi
    simp [is_due, he, hl, hi]
  · simp only [is_due, record_run, if_pos]
    simp [intervalFor]
  · intro later h
    simp only [is_due, record_run, if_pos]
    simp [intervalFor, h]

/-- Witness for C6: a task with no record is due; after recording a run
at time 0 it is due again at time 86400. -/
theorem is_due_spec_witness :
    is_due (record_run (fun _ => none) 0 7 ("daily")) 86400 7 ("daily") = true :=
  (is_due_spec (fun _ => none) 0 7).2.2.2.2.2.2 86400 (by decide)

/-- C4: when staging leaves the index clean (no porcelain status output,
or the capture failed), commit_and_push returns false having issued no
commit and no push; with staged modifications and a succeeding push (or a
succeeding lease-protected retry) it returns true having issued exactly
one commit and at least one push. -/
theorem commit_and_push_changes_spec (worktree_path message branch : String)
    (push_ok force_ok : Bool) :
    (∀ status_out : Option String,
        (status_out = none ∨ ∃ s, status_out = some s ∧ pyStrip s = "") →
        (commit_and_push worktree_path message status_out branch push_ok force_ok).1 =
            Except.ok false ∧
        (commit_and_push worktree_path message status_out branch push_ok force_ok).2.countP
            isCommitCall = 0 ∧
        (commit_and_push worktree_path message status_out branch push_ok force_ok).2.countP
            isPushCall = 0) ∧
    (∀ s : String, pyStrip s ≠ "" → (push_ok = true ∨ force_ok = true) →
        (commit_and_push worktree_path message (some s) branch push_ok force_ok).1 =
            Except.ok true ∧
        (commit_and_push worktree_path message (some s) branch push_ok force_ok).2.countP
            isCommitCall = 1 ∧
        1 ≤ (commit_and_push worktree_path message (some s) branch push_ok force_ok).2.countP
            isPushCall) := by
  constructor
  · rintro status_out (rfl | ⟨s, rfl, hs⟩)
    · refine ⟨rfl, ?_, ?_⟩ <;>
        simp [commit_and_push, List.countP_cons, isCommitCall, isPushCall]
    · rw [commit_and_push]
      rw [if_pos hs]
      refine ⟨rfl, ?_, ?_⟩ <;>
        simp [List.countP_cons, isCommitCall, isPushCall]
  · intro s hs hok
    rw [commit_and_push]
    rw [if_neg hs]
    cases push_ok with
    | true =>
      refine ⟨rfl, ?_, ?_⟩ <;>
        simp [List.countP_cons, isCommitCall, isPushCall]
    | false =>
      cases force_ok with
      | true =>
        refine ⟨rfl, ?_, ?_⟩ <;>
          simp [List.countP_cons, isCommitCall, isPushCall]
      | false =>
        rcases hok with h | h <;> exact absurd h (by decide)

/-- Witness for C4: a clean status yields false with no commit and no
push; a dirty status with a succeeding push yields true with one commit. -/
theorem commit_and_push_changes_spec_witness :
    (commit_and_push ("/wt") ("msg") (some ("  ")) ("claude/1") true true).1 =
        Except.ok false ∧
    (commit_and_push ("/wt") ("msg") (some (" M a.txt")) ("claude/1") true true).2.countP
        isCommitCall = 1 :=
  ⟨((commit_and_push_changes_spec ("/wt") ("msg") ("claude/1") true true).1
      (some ("  ")) (Or.inr ⟨"  ", rfl, by decide⟩)).1,
   ((commit_and_push_changes_spec ("/wt") ("msg") ("claude/1") true true).2
      (" M a.txt") (by decide) (Or.inl rfl)).2.1⟩

/-- C5: with staged changes and a rejected initial push, exactly one
retry is attempted and it is the lease-protected force push; a failing
retry propagates as an error. -/
theorem commit_and_push_retry_lease (worktree_path message branch s : String)
    (force_ok : Bool) (hs : pyStrip s ≠ "") :
    (commit_and_push worktree_path message (some s) branch false force_ok).2.filter
        isPushCall =
      [GitCall.mk worktree_path ["push", "-u", "origin", branch],
       GitCall.mk worktree_path ["push", "--force-with-lease", "-u", "origin", branch]] ∧
    (force_ok = true →
      (commit_and_push worktree_path message (some s) branch false force_ok).1 =
        Except.ok true) ∧
    (force_ok = false →
      (commit_and_push worktree_path message (some s) branch false force_ok).1 =
        Except.error ()) := by
  rw [commit_and_push]
  rw [if_neg hs]
  cases force_ok with
  | true =>
    refine ⟨?_, fun _ => rfl, fun h => absurd h (by decide)⟩
    simp [List.filter, isPushCall]
  | false =>
    refine ⟨?_, fun h => absurd h (by decide), fun _ => rfl⟩
    simp [List.filter, isPushCall]

/-- Witness for C5: concrete rejected push followed by a failing
lease-protected retry propagates the error. -/
theorem commit_and_push_retry_lease_witness :
    (commit_and_push ("/wt") ("msg") (some (" M a.txt")) ("claude/1") false false).1 =
      Except.error () :=
  ((commit_and_push_retry_lease ("/wt") ("msg") ("claude/1") (" M a.txt") false
      (by decide)).2.2) rfl

/-- C8: the base reference prefers the remote-tracking form and falls
back to the local form; when neither resolves the worktree is built by
initializing a fresh repository, pointing its remote at the same
coordinate, and creating the branch as an orphan, with no base
reference. -/
theorem create_worktree_base_spec (resolvable : String → Bool)
    (token repo branch_name base_branch repo_dir worktree_path : String) :
    (resolvable ("origin/" ++ base_branch) = true →
        resolveBaseRef resolvable base_branch = some ("origin/" ++ base_branch)) ∧
    (resolvable ("origin/" ++ base_branch) = false → resolvable base_branch = true →
        resolveBaseRef resolvable base_branch = some base_branch) ∧
    (∀ base_ref, resolveBaseRef resolvable base_branch = some base_ref →
        resolvable branch_name = false →
        create_worktree resolvable token repo branch_name base_branch repo_dir worktree_path =
          [GitCall.mk repo_dir ["fetch", "--all"],
           GitCall.mk repo_dir ["worktree", "add", "-b", branch_name, worktree_path, base_ref],
           GitCall.mk worktree_path ["remote", "set-url", "origin", cloneUrl token repo]]) ∧
    (resolvable ("origin/" ++ base_branch) = false → resolvable base_branch = false →
        create_worktree resolvable token repo branch_name base_branch repo_dir worktree_path =
          [GitCall.mk repo_dir ["fetch", "--all"],
           GitCall.mk worktree_path ["init"],
           GitCall.mk worktree_path ["remote", "add", "origin", cloneUrl token repo],
           GitCall.mk worktree_path ["checkout", "--orphan", branch_name],
           GitCall.mk worktree_path ["remote", "set-url", "origin", cloneUrl token repo]]) := by
  refine ⟨?_, ?_, ?_, ?_⟩
  · intro h
    simp [resolveBaseRef, h]
  · intro h₁ h₂
    simp [resolveBaseRef, h₁, h₂]
  · intro base_ref hres hbr
    simp [create_worktree, hres, hbr]
  · intro h₁ h₂
    simp [create_worktree, resolveBaseRef, h₁, h₂]

/-- Witness for C8: in a repository where no ref resolves, the orphan
initialization sequence is produced. -/
theorem create_worktree_base_spec_witness :
    create_worktree (fun _ => false) ("tok") ("o/r") ("claude/2") ("main")
        ("/repos/o_r") ("/worktrees/o_r_2") =
      [GitCall.mk ("/repos/o_r") ["fetch", "--all"],
       GitCall.mk ("/worktrees/o_r_2") ["init"],
       GitCall.mk ("/worktrees/o_r_2") ["remote", "add", "origin", cloneUrl ("tok") ("o/r")],
       GitCall.mk ("/worktrees/o_r_2") ["checkout", "--orphan", "claude/2"],
       GitCall.mk ("/worktrees/o_r_2") ["remote", "set-url", "origin", cloneUrl ("tok") ("o/r")]] :=
  (create_worktree_base_spec (fun _ => false) ("tok") ("o/r") ("claude/2") ("main")
      ("/repos/o_r") ("/worktrees/o_r_2")).2.2.2 rfl rfl

/-- Helper: under handlers that never yield a terminal result and never
leave the handler stages, the driver burns its whole iteration budget and
fails, writing the failed stage label. -/
theorem driveAux_all_continue {σ : Type} (handler : σ → String → Task → σ × Task × String)
    (hh : ∀ s st t, st ∈ handlerStages →
        (handler s st t).2.2 ∉ terminalResults ∧
        (handler s st t).2.1.current_stage ∈ handlerStages) :
    ∀ (fuel : Nat) (s : σ) (task : Task), task.current_stage ∈ handlerStages →
      (driveAux handler fuel s task).result = "failed" ∧
      (driveAux handler fuel s task).calls = fuel ∧
      (driveAux handler fuel s task).driverLabels = ["failed"]
  | 0, s, task, ht => ⟨rfl, rfl, rfl⟩
  | fuel + 1, s, task, ht => by
    have h := hh s task.current_stage task ht
    have ih := driveAux_all_continue handler hh fuel
      (handler s task.current_stage task).1 (handler s task.current_stage task).2.1 h.2
    rw [driveAux]
    rw [if_pos ht]
    show (if (handler s task.current_stage task).2.2 ∈ terminalResults then _ else _ :
        DriveOut σ).result = _ ∧ _
    rw [if_neg h.1]
    exact ⟨ih.1, by simpa using ih.2.1, ih.2.2⟩

/-- C1: a task whose stage handlers never reach a terminal or blocked
outcome is driven for at most the iteration ceiling (the constant 20)
many handler invocations, after which the driver writes the failed stage
label and returns failed. -/
theorem drive_iteration_ceiling {σ : Type} (handler : σ → String → Task → σ × Task × String)
    (hh : ∀ s st t, st ∈ handlerStages →
        (handler s st t).2.2 ∉ terminalResults ∧
        (handler s st t).2.1.current_stage ∈ handlerStages)
    (s : σ) (task : Task) (ht : task.current_stage ∈ handlerStages) :
    MAX_ITERATIONS = 20 ∧
    (drive handler s task).result = "failed" ∧
    (drive handler s task).calls ≤ MAX_ITERATIONS ∧
    (drive handler s task).driverLabels = ["failed"] := by
  have h := driveAux_all_continue handler hh MAX_ITERATIONS s task ht
  exact ⟨rfl, h.1, le_of_eq h.2.1, h.2.2⟩

/-- Witness for C1: a handler that always continues into the design stage
drives a triage task to the forced failure. -/
theorem drive_iteration_ceiling_witness :
    (drive (fun (s : Unit) (_ : String) (t : Task) =>
        (s, { t with current_stage := "design" }, "continue")) ()
        (Task.mk 1 ("medium") ("once") false ("triage") 0 0 none none ("claude/1"))).result =
      "failed" :=
  (drive_iteration_ceiling _
      (fun s st t _ => ⟨by simp [terminalResults], by simp [handlerStages]⟩) ()
      (Task.mk 1 ("medium") ("once") false ("triage") 0 0 none none ("claude/1"))
      (by decide)).2.1

/-- Helper: the execute_review branch for an output carrying neither
verdict marker routes the task back to development with a
changes-required verdict, and the driver wrapper continues. -/
theorem run_code_review_ambiguous (find_pr : Option (Nat × String)) (max_cycles : Nat)
    (d output : String) (task : Task) (pr : Nat)
    (hpr : task.pr_number = some pr)
    (hap : strContains output APPROVED_MARKER = false)
    (hcr : strContains output CHANGES_MARKER = false) :
    run_code_review find_pr max_cycles (some d) true output task =
      ⟨{ task with current_stage := "development" }, "continue", ["development"]⟩ := by
  simp [run_code_review, execute_review, hpr, hap, hcr]

/-- C2: a code-review worker output carrying the changes-required verdict
marker on a task one cycle below the configured maximum ends the run
blocked with the awaiting-human stage label written, and never transitions
the task back to development. -/
theorem review_cycle_limit_escalates (find_pr : Option (Nat × String)) (max_cycles : Nat)
    (d output : String) (task : Task) (pr : Nat)
    (hpr : task.pr_number = some pr)
    (hstage : task.current_stage = "code-review")
    (hcy : task.review_cycles + 1 = max_cycles)
    (hcr : strContains output CHANGES_MARKER = true) :
    (run_code_review find_pr max_cycles (some d) true output task).result = "blocked" ∧
    "awaiting-human" ∈ (run_code_review find_pr max_cycles (some d) true output task).labels ∧
    "development" ∉ (run_code_review find_pr max_cycles (some d) true output task).labels ∧
    (run_code_review find_pr max_cycles (some d) true output task).task.current_stage ≠
      "development" := by
  have hge : max_cycles ≤ task.review_cycles + 1 := le_of_eq hcy.symm
  by_cases hap : strContains output APPROVED_MARKER
  · simp [run_code_review, execute_review, hpr, hap, hstage]
  · simp [run_code_review, execute_review, hpr, hap, hcr, hge]

/-- Witness for C2: a task at review cycle 2 of a maximum 3 receiving an
explicit changes-required verdict ends blocked. -/
theorem review_cycle_limit_escalates_witness :
    (run_code_review none 3 (some ("diff")) true
        ("REVIEW_VERDICT: CHANGES_REQUIRED fix the tests")
        (Task.mk 5 ("medium") ("once") false ("code-review") 2 0 (some 9) none
          ("claude/5"))).result = "blocked" :=
  (review_cycle_limit_escalates none 3 ("diff")
      ("REVIEW_VERDICT: CHANGES_REQUIRED fix the tests")
      (Task.mk 5 ("medium") ("once") false ("code-review") 2 0 (some 9) none ("claude/5"))
      9 rfl rfl rfl (by decide)).1

/-- C9: a code-review worker output carrying neither verdict marker does
not abort the run: the verdict is changes-required, the task transitions
back to the development stage, and the driver continues. -/
theorem ambiguous_review_continues (find_pr : Option (Nat × String)) (max_cycles : Nat)
    (d output : String) (task : Task) (pr : Nat)
    (hpr : task.pr_number = some pr)
    (hap : strContains output APPROVED_MARKER = false)
    (hcr : strContains output CHANGES_MARKER = false) :
    (execute_review max_cycles (some d) true output task).verdict = "changes_required" ∧
    (run_code_review find_pr max_cycles (some d) true output task).result = "continue" ∧
    (run_code_review find_pr max_cycles (some d) true output task).task.current_stage =
      "development" ∧
    "development" ∈ (run_code_review find_pr max_cycles (some d) true output task).labels := by
  rw [run_code_review_ambiguous find_pr max_cycles d output task pr hpr hap hcr]
  refine ⟨?_, rfl, rfl, by simp⟩
  simp [execute_review, hpr, hap, hcr]

/-- Witness for C9: a review answer with no verdict marker continues into
development. -/
theorem ambiguous_review_continues_witness :
    (run_code_review none 3 (some ("diff")) true ("looks mostly reasonable")
        (Task.mk 5 ("medium") ("once") false ("code-review") 0 0 (some 9) none
          ("claude/5"))).result = "continue" :=
  (ambiguous_review_continues none 3 ("diff") ("looks mostly reasonable")
      (Task.mk 5 ("medium") ("once") false ("code-review") 0 0 (some 9) none ("claude/5"))
      9 rfl (by decide) (by decide)).2.1

/-- Helper: execute_review leaves the review-cycle counter untouched in
every branch except the explicit changes-required verdict branch. -/
theorem execute_review_cycles_unchanged (max_cycles : Nat) (diff : Option String)
    (invoke_ok : Bool) (output : String) (task : Task)
    (h : ¬(strContains output CHANGES_MARKER = true ∧
        strContains output APPROVED_MARKER = false)) :
    (execute_review max_cycles diff invoke_ok output task).task.review_cycles =
      task.review_cycles := by
  unfold execute_review
  cases hpr : task.pr_number <;> cases diff <;> cases invoke_ok <;>
    by_cases hap : strContains output APPROVED_MARKER <;>
    by_cases hcr : strContains output CHANGES_MARKER <;>
    simp_all

/-- Helper: one-iteration behaviour of the all-ambiguous handler at the
two loop stages. -/
theorem ambiguousLoopStep_eq (outputs : Nat → String) (find_pr : Option (Nat × String))
    (max_cycles : Nat) (d : String) (dev : Task → Task)
    (hout : ∀ j, strContains (outputs j) APPROVED_MARKER = false ∧
        strContains (outputs j) CHANGES_MARKER = false)
    (i : Nat) (task : Task) (pr : Nat) (hpr : task.pr_number = some pr) :
    (task.current_stage = "code-review" →
      ambiguousLoopStep outputs find_pr max_cycles d dev i task.current_stage task =
        (i + 1, { task with current_stage := "development" }, "continue")) ∧
    (task.current_stage = "development" →
      ambiguousLoopStep outputs find_pr max_cycles d dev i task.current_stage task =
        (i + 1, dev task, "continue")) := by
  constructor
  · intro hcr
    rw [hcr]
    simp only [ambiguousLoopStep, if_pos rfl]
    rw [run_code_review_ambiguous find_pr max_cycles d (outputs i) task pr hpr
      (hout i).1 (hout i).2]
    simp
  · intro hdv
    rw [hdv]
    simp [ambiguousLoopStep]

/-- Helper: a development and code-review loop whose reviews are all
ambiguous keeps the review-cycle counter constant and ends only through
the iteration ceiling. -/
theorem ambiguousLoop_aux (outputs : Nat → String) (find_pr : Option (Nat × String))
    (max_cycles : Nat) (d : String) (dev : Task → Task)
    (hout : ∀ j, strContains (outputs j) APPROVED_MARKER = false ∧
        strContains (outputs j) CHANGES_MARKER = false)
    (hdev : ∀ t, (dev t).current_stage = "code-review" ∧
        (dev t).review_cycles = t.review_cycles ∧ (dev t).pr_number = t.pr_number) :
    ∀ (fuel i : Nat) (task : Task),
      task.current_stage = "code-review" ∨ task.current_stage = "development" →
      (∃ pr, task.pr_number = some pr) →
      (driveAux (ambiguousLoopStep outputs find_pr max_cycles d dev) fuel i task).result =
          "failed" ∧
      (driveAux (ambiguousLoopStep outputs find_pr max_cycles d dev) fuel i
          task).task.review_cycles = task.review_cycles
  | 0, i, task, hst, hpr => ⟨rfl, rfl⟩
  | fuel + 1, i, task, hst, ⟨pr, hpr⟩ => by
    have hmem : task.current_stage ∈ handlerStages := by
      rcases hst with h | h <;> simp [handlerStages, h]
    have hstep := ambiguousLoopStep_eq outputs find_pr max_cycles d dev hout i task pr hpr
    rw [driveAux]
    rw [if_pos hmem]
    show (if (ambiguousLoopStep outputs find_pr max_cycles d dev i task.current_stage
        task).2.2 ∈ terminalResults then _ else _ : DriveOut Nat).result = _ ∧ _
    rcases hst with hcr | hdv
    · rw [hstep.1 hcr]
      rw [if_neg (by simp [terminalResults])]
      have ih := ambiguousLoop_aux outputs find_pr max_cycles d dev hout hdev fuel (i + 1)
        { task with current_stage := "development" } (Or.inr rfl) ⟨pr, hpr⟩
      exact ⟨ih.1, ih.2⟩
    · rw [hstep.2 hdv]
      rw [if_neg (by simp [terminalResults])]
      have ih := ambiguousLoop_aux outputs find_pr max_cycles d dev hout hdev fuel (i + 1)
        (dev task) (Or.inl (hdev task).1) ⟨pr, by rw [(hdev task).2.2, hpr]⟩
      exact ⟨ih.1, by rw [show (driveAux (ambiguousLoopStep outputs find_pr max_cycles d dev)
        fuel (i + 1) (dev task)).task.review_cycles = (dev task).review_cycles from ih.2,
        (hdev task).2.1]⟩

/-- C10: an ambiguous review output leaves the review-cycle counter
unchanged; the counter moves only on an explicit changes-required
verdict; and a loop fed only ambiguous review outputs never escalates,
being bounded solely by the driver iteration ceiling, which it exits as
failed with the counter still at its initial value. -/
theorem ambiguous_review_frame :
    (∀ (max_cycles : Nat) (diff : Option String) (invoke_ok : Bool) (output : String)
        (task : Task),
        strContains output APPROVED_MARKER = false →
        strContains output CHANGES_MARKER = false →
        (execute_review max_cycles diff invoke_ok output task).task.review_cycles =
            task.review_cycles ∧
        (execute_review max_cycles diff invoke_ok output task).verdict ≠ "escalated") ∧
    (∀ (max_cycles : Nat) (diff : Option String) (invoke_ok : Bool) (output : String)
        (task : Task),
        (execute_review max_cycles diff invoke_ok output task).task.review_cycles ≠
            task.review_cycles →
        strContains output CHANGES_MARKER = true ∧
          strContains output APPROVED_MARKER = false) ∧
    (∀ (outputs : Nat → String) (find_pr : Option (Nat × String)) (max_cycles : Nat)
        (d : String) (dev : Task → Task) (i : Nat) (task : Task) (pr : Nat),
        (∀ j, strContains (outputs j) APPROVED_MARKER = false ∧
            strContains (outputs j) CHANGES_MARKER = false) →
        (∀ t, (dev t).current_stage = "code-review" ∧
            (dev t).review_cycles = t.review_cycles ∧ (dev t).pr_number = t.pr_number) →
        task.current_stage = "code-review" → task.pr_number = some pr →
        (drive (ambiguousLoopStep outputs find_pr max_cycles d dev) i task).result =
            "failed" ∧
        (drive (ambiguousLoopStep outputs find_pr max_cycles d dev) i
            task).task.review_cycles = task.review_cycles) := by
  refine ⟨?_, ?_, ?_⟩
  · intro max_cycles diff invoke_ok output task hap hcr
    constructor
    · exact execute_review_cycles_unchanged max_cycles diff invoke_ok output task
        (by simp [hcr])
    · unfold execute_review
      cases task.pr_number <;> cases diff <;> cases invoke_ok <;> simp_all
  · intro max_cycles diff invoke_ok output task h
    by_contra hc
    exact h (execute_review_cycles_unchanged max_cycles diff invoke_ok output task
      (fun hx => hc ⟨hx.1, hx.2⟩))
  · intro outputs find_pr max_cycles d dev i task pr hout hdev hst hpr
    exact ambiguousLoop_aux outputs find_pr max_cycles d dev hout hdev MAX_ITERATIONS i
      task (Or.inl hst) ⟨pr, hpr⟩

/-- Witness for C10: a concrete all-ambiguous loop starting at
code-review exits failed with the counter still zero. -/
theorem ambiguous_review_frame_witness :
    (drive (ambiguousLoopStep (fun _ => "looks fine overall") none 3 ("diff")
        (fun t => { t with current_stage := "code-review" })) 0
        (Task.mk 5 ("medium") ("once") false ("code-review") 0 0 (some 9) none
          ("claude/5"))).result = "failed" := by
  have hap : strContains ("looks fine overall") APPROVED_MARKER = false := by decide
  have hcr : strContains ("looks fine overall") CHANGES_MARKER = false := by decide
  exact (ambiguous_review_frame.2.2 (fun _ => "looks fine overall") none 3 ("diff")
      (fun t => { t with current_stage := "code-review" }) 0
      (Task.mk 5 ("medium") ("once") false ("code-review") 0 0 (some 9) none ("claude/5"))
      9 (fun j => ⟨hap, hcr⟩) (fun t => ⟨rfl, rfl, rfl⟩) rfl rfl).1

/-- Helper: keyLE is transitive. -/
theorem keyLE_trans {α : Type} (f : α → Nat) :
    ∀ a b c : α, keyLE f a b = true → keyLE f b c = true → keyLE f a c = true := by
  intro a b c h₁ h₂
  simp only [keyLE, decide_eq_true_eq] at h₁ h₂ ⊢
  exact le_trans h₁ h₂

/-- Helper: keyLE is total. -/
theorem keyLE_total {α : Type} (f : α → Nat) :
    ∀ a b : α, keyLE f a b || keyLE f b a := by
  intro a b
  simp only [keyLE, Bool.or_eq_true, decide_eq_true_eq]
  exact Nat.le_total (f a) (f b)

/-- Helper: firstMinBy yields none exactly on the empty list. -/
theorem firstMinBy_eq_none {α : Type} (f : α → Nat) (l : List α) :
    firstMinBy f l = none ↔ l = [] := by
  cases l with
  | nil => simp [firstMinBy]
  | cons a l =>
    rw [firstMinBy]
    cases h : firstMinBy f l with
    | none => simp
    | some b =>
      constructor
      · intro hh
        by_cases hab : f a ≤ f b <;> simp [hab] at hh
      · intro hh
        cases hh

/-- Helper: the head of a stable sort by a numeric key is the first
element attaining the minimal key. -/
theorem head_mergeSort_firstMinBy {α : Type} (f : α → Nat) :
    ∀ l : List α, (l.mergeSort (keyLE f)).head? = firstMinBy f l
  | [] => by simp [firstMinBy]
  | a :: l => by
    obtain ⟨l₁, l₂, h₁, h₂, h₃⟩ := List.mergeSort_cons (keyLE_trans f) (keyLE_total f) a l
    have ih := head_mergeSort_firstMinBy f l
    cases l₁ with
    | nil =>
      simp only [List.nil_append] at h₁ h₂
      rw [firstMinBy, ← ih, h₂, h₁]
      cases l₂ with
      | nil => rfl
      | cons b t =>
        have hs := List.sorted_mergeSort (keyLE_trans f) (keyLE_total f) (a :: l)
        rw [h₁] at hs
        have hab : keyLE f a b = true :=
          (List.pairwise_cons.mp hs).1 b (List.mem_cons_self b t)
        have hab' : f a ≤ f b := by simpa [keyLE] using hab
        simp [hab']
    | cons x t =>
      have hfm : firstMinBy f l = some x := by
        rw [← ih, h₂]
        rfl
      have hax : ¬ f a ≤ f x := by
        have hx := h₃ x (List.mem_cons_self x t)
        simpa [keyLE] using hx
      rw [firstMinBy, hfm, h₁]
      simp [hax]

/-- Helper: full characterization of firstMinBy: its value is a member,
minimizes the key over the list, and every strictly earlier element has a
strictly larger key. -/
theorem firstMinBy_spec {α : Type} (f : α → Nat) :
    ∀ (l : List α) (u : α), firstMinBy f l = some u →
      u ∈ l ∧ (∀ v ∈ l, f u ≤ f v) ∧
      ∃ l₁ l₂, l = l₁ ++ u :: l₂ ∧ ∀ v ∈ l₁, f u < f v
  | [], u, h => by cases h
  | a :: l, u, h => by
    rw [firstMinBy] at h
    cases hfm : firstMinBy f l with
    | none =>
      rw [hfm] at h
      cases h
      have hnil : l = [] := (firstMinBy_eq_none f l).mp hfm
      subst hnil
      exact ⟨List.mem_singleton_self a, by simp, [], [], rfl, by simp⟩
    | some b =>
      rw [hfm] at h
      have h' : (if f a ≤ f b then some a else some b) = some u := h
      have ih := firstMinBy_spec f l b hfm
      by_cases hab : f a ≤ f b
      · rw [if_pos hab] at h'
        cases h'
        refine ⟨List.mem_cons_self a l, ?_, [], l, rfl, by simp⟩
        intro v hv
        rcases List.mem_cons.mp hv with rfl | hv
        · exact le_refl _
        · exact le_trans hab (ih.2.1 v hv)
      · rw [if_neg hab] at h'
        cases h'
        obtain ⟨hb, hmin, l₁, l₂, hdec, hless⟩ := ih
        refine ⟨List.mem_cons_of_mem a hb, ?_, a :: l₁, l₂, by rw [hdec]; rfl, ?_⟩
        · intro v hv
          rcases List.mem_cons.mp hv with rfl | hv
          · exact le_of_lt (Nat.lt_of_not_le hab)
          · exact hmin v hv
        · intro v hv
          rcases List.mem_cons.mp hv with rfl | hv
          · exact Nat.lt_of_not_le hab
          · exact hless v hv

/-- C7: the selector keeps exactly the candidates passing the night and
recurrence filters; it yields none exactly when no candidate remains;
and a selected task is a candidate of minimal priority order whose
strictly earlier candidates all have strictly larger priority order, so
ties are broken by arrival order. -/
theorem select_task_spec (issues : List Task) (night_start night_end hour : Nat)
    (data : Nat → Option RecurrenceEntry) (now : Int) :
    (∀ t, t ∈ candidateTasks issues night_start night_end hour data now ↔
        t ∈ issues ∧
        (t.night_only = true → is_in_night_window night_start night_end hour = true) ∧
        (t.schedule ≠ "once" → is_due data now t.issue_number t.schedule = true)) ∧
    (select_task issues night_start night_end hour data now = none ↔
        candidateTasks issues night_start night_end hour data now = []) ∧
    (∀ u, select_task issues night_start night_end hour data now = some u →
        u ∈ candidateTasks issues night_start night_end hour data now ∧
        (∀ v ∈ candidateTasks issues night_start night_end hour data now,
            PRIORITY_ORDER u.priority ≤ PRIORITY_ORDER v.priority) ∧
        ∃ l₁ l₂, candidateTasks issues night_start night_end hour data now = l₁ ++ u :: l₂ ∧
          ∀ v ∈ l₁, PRIORITY_ORDER u.priority < PRIORITY_ORDER v.priority) := by
  refine ⟨?_, ?_, ?_⟩
  · intro t
    rw [candidateTasks, List.mem_filter]
    simp only [eligibleTask, Bool.and_eq_true, Bool.not_eq_true', Bool.and_eq_false_iff,
      Bool.not_eq_false', Bool.or_eq_true, decide_eq_true_eq]
    constructor
    · rintro ⟨hm, ⟨hn, ho⟩⟩
      refine ⟨hm, ?_, ?_⟩
      · intro hno
        rcases hn with h | h
        · rw [hno] at h
          cases h
        · exact h
      · intro hs
        rcases ho with h | h
        · exact absurd h hs
        · exact h
    · rintro ⟨hm, hn, ho⟩
      refine ⟨hm, ?_, ?_⟩
      · cases hb : t.night_only with
        | false => exact Or.inl rfl
        | true => exact Or.inr (hn hb)
      · by_cases hs : t.schedule = "once"
        · exact Or.inl hs
        · exact Or.inr (ho hs)
  · simp only [select_task]
    cases h : candidateTasks issues night_start night_end hour data now with
    | nil => simp
    | cons a l =>
      simp only []
      constructor
      · intro hh
        have h0 := List.head?_eq_none_iff.mp hh
        have hlen := congrArg List.length h0
        simp at hlen
      · intro hh
        cases hh
  · intro u hu
    have hfm : firstMinBy (fun t => PRIORITY_ORDER t.priority)
        (candidateTasks issues night_start night_end hour data now) = some u := by
      simp only [select_task] at hu
      cases h : candidateTasks issues night_start night_end hour data now with
      | nil =>
        rw [h] at hu
        cases hu
      | cons a l =>
        rw [h] at hu
        rw [← head_mergeSort_firstMinBy (fun t => PRIORITY_ORDER t.priority) (a :: l)]
        exact hu
    exact firstMinBy_spec (fun t => PRIORITY_ORDER t.priority) _ u hfm

/-- Witness for C7: a single eligible high-priority task is selected and
is a candidate. -/
theorem select_task_spec_witness :
    Task.mk 3 ("high") ("once") false ("triage") 0 0 none none ("claude/3") ∈
      candidateTasks [Task.mk 3 ("high") ("once") false ("triage") 0 0 none none ("claude/3")]
        2 8 23 (fun _ => none) 0 :=
  ((select_task_spec
      [Task.mk 3 ("high") ("once") false ("triage") 0 0 none none ("claude/3")]
      2 8 23 (fun _ => none) 0).2.2
    (Task.mk 3 ("high") ("once") false ("triage") 0 0 none none ("claude/3"))
    (by simp [select_task, candidateTasks, List.filter, eligibleTask,
        List.mergeSort_singleton])).1

end Nightshift
